import Mathlib

/-!
Shallow embedding of the `ctxerrpool` / `ctxerrgroup` worker-pool core
(`group.go`, `worker.go`, `utils.go`) and proofs about its lifecycle
state machine: admission, the idempotent finish path, the death signal,
and the per-item context-error reporting guard.

Go channels, contexts and selects are embedded as follows: a channel's
"closed" status is a `Bool`; `context.Context` is represented by the
observations code makes of it (`Done` fired or not, and the value of
`ctx.Err()`); a `select` over several ready cases resolves
nondeterministically, so each select is parameterised by a "pick"
drawn from its cases, and theorems quantify over all picks whose
readiness condition can hold.  Machine-level concurrency is serialised:
each mutex-guarded critical section and each atomic step of the pool is
one function application, and interleavings are explicit schedule
parameters.
-/

namespace Ctxerrpool

/-- Go `error` values as the worker code observes them: `errors.Is err
context.Canceled`, `errors.Is err context.DeadlineExceeded`, and an
identity tag distinguishing otherwise-equal errors. -/
structure GoError where
  isCanceled : Bool
  isDeadlineExceeded : Bool
  id : Nat
deriving DecidableEq, Repr

/-- An error counts as a context-cancellation/deadline error when it
wraps `context.Canceled` or `context.DeadlineExceeded`. -/
def GoError.isCtx (e : GoError) : Bool :=
  e.isCanceled || e.isDeadlineExceeded

/-- `ErrCantDo = errors.New("failed to send work item to a worker before
the context expired")` — a plain error, not a context error. -/
def ErrCantDo : GoError := ⟨false, false, 0⟩

/-- `dead(death)` from `utils.go`: a non-blocking select on the death
channel; returns whether the channel is closed. -/
def deadChan (death : Bool) : Bool := death

/-- `expired(ctx)` from `utils.go`: a non-blocking select on
`ctx.Done()`; returns `ctx.Err()` when the context is done, `nil`
otherwise.  `ctxDone` is whether `Done` has fired at this observation,
`ctxErr` the value `ctx.Err()` would return. -/
def expired (ctxDone : Bool) (ctxErr : GoError) : Option GoError :=
  if ctxDone then some ctxErr else none

/-- The mutable state of a `workItem` (from `worker.go` / `utils.go`)
together with observation fields fixed per item: `ctxErr` is what
`item.ctx.Err()` returns once the context is done, `workResult` what
`item.work(item.ctx)` returns when the action runs, `id` identifies the
item.  `cancelCalls` counts invocations of `item.cancel` so that
"invoked exactly once" is statable. -/
structure WorkItem where
  decremented : Bool
  cancelCalls : Nat
  ctxErr : GoError
  workResult : Option GoError
  id : Nat
deriving DecidableEq, Repr

/-- `workItem.finished()` from `utils.go`: under `item.mux`, if not yet
`decremented`, invoke `item.cancel()`, set `decremented`, and
`item.wg.Done()` (modelled as decrementing the group's pending
counter).  Returns the updated item and pending count. -/
def WorkItem.finished (item : WorkItem) (pending : Nat) : WorkItem × Nat :=
  if item.decremented then (item, pending)
  else ({ item with decremented := true, cancelCalls := item.cancelCalls + 1 },
        pending - 1)

/-! ## The context-error guard inside `worker.work` / `worker.doWork`

`worker.work` creates `muxCtxErr` and `hasCtxErr := false`, spawns
`doWork`, and waits on `select {item.ctx.Done, w.death, finished}`.
The two critical sections below are serialised by `muxCtxErr`. -/

/-- The `case <-item.ctx.Done()` branch of the select in `worker.work`
(lines 95–101): under `muxCtxErr`, if `hasCtxErr` is not yet set, set it
and send `item.ctx.Err()` on the error channel.  Returns the new flag
and the list of errors routed by this section. -/
def workCtxDoneCase (hasCtxErr : Bool) (ctxErr : GoError) :
    Bool × List GoError :=
  if hasCtxErr then (hasCtxErr, [])
  else (true, [ctxErr])

/-- `worker.doWork` (lines 114–129): run the action; if it returned an
error, then under `muxCtxErr` route it unless it is a context error that
has already been reported.  The condition is transcribed verbatim from
line 120.  Returns the new flag and the errors routed. -/
def doWork (hasCtxErr : Bool) (res : Option GoError) :
    Bool × List GoError :=
  match res with
  | none => (hasCtxErr, [])
  | some err =>
      if (!err.isCanceled && !err.isDeadlineExceeded)
          || (err.isCanceled && !hasCtxErr
              || err.isDeadlineExceeded && !hasCtxErr) then
        (true, [err])
      else (hasCtxErr, [])

/-- The order in which the two `muxCtxErr`-guarded sections run for one
executing item.  `actionOnly`: the select resolved via `finished` or
`w.death`, so the `ctx.Done` section never runs.  The other two are the
two serialisations when both sections run. -/
inductive GuardSchedule where
  | actionOnly
  | ctxCaseThenAction
  | actionThenCtxCase
deriving DecidableEq, Repr

/-- The errors routed on the error channel, in order, by the race
between the `ctx.Done` select case and `doWork`, starting from
`hasCtxErr = false` as `worker.work` initialises it. -/
def raceRouted (sched : GuardSchedule) (ctxErr : GoError)
    (res : Option GoError) : List GoError :=
  match sched with
  | .actionOnly => (doWork false res).2
  | .ctxCaseThenAction =>
      let r1 := workCtxDoneCase false ctxErr
      r1.2 ++ (doWork r1.1 res).2
  | .actionThenCtxCase =>
      let r1 := doWork false res
      r1.2 ++ (workCtxDoneCase r1.1 ctxErr).2

/-- `worker.work` (lines 66–111) for one received item: return early if
the group is dead; route `ctx.Err()` and return if the item's context
already expired; otherwise run the action against the guarded race.
Returns the errors routed for this item and whether the action was
executed. -/
def workerWork (death : Bool) (ctxDoneAtCheck : Bool) (item : WorkItem)
    (sched : GuardSchedule) : List GoError × Bool :=
  if deadChan death then ([], false)
  else
    match expired ctxDoneAtCheck item.ctxErr with
    | some err => ([err], false)
    | none => (raceRouted sched item.ctxErr item.workResult, true)

/-- Count the context-cancellation/deadline errors in a routed list. -/
def countCtx (l : List GoError) : Nat :=
  (l.filter (fun e => e.isCtx)).length

/-- C1: for every work item a worker executes, at most one
context-cancellation/deadline error is routed, whichever of the
`ctx.Done` observer and the action detects expiry and in whichever
order the `muxCtxErr`-guarded sections run; this also holds on the
non-executing paths of `worker.work`. -/
theorem ctx_error_routed_at_most_once (death ctxDone : Bool)
    (item : WorkItem) (sched : GuardSchedule) :
    countCtx (workerWork death ctxDone item sched).1 ≤ 1 := by
  rcases item with ⟨d, cc, ⟨c1, d1, i1⟩, res, i⟩
  rcases res with _ | ⟨c2, d2, i2⟩ <;>
    cases death <;> cases ctxDone <;> cases sched <;>
    cases c1 <;> cases d1 <;>
    first
    | (cases c2 <;> cases d2 <;>
        simp [workerWork, raceRouted, doWork, workCtxDoneCase, countCtx,
          expired, deadChan, GoError.isCtx])
    | simp [workerWork, raceRouted, doWork, workCtxDoneCase, countCtx,
        expired, deadChan, GoError.isCtx]

/-- C2: the finish path is idempotent.  The first call to `finished()`
on a not-yet-finished item invokes `cancel` exactly once, decrements the
pending counter and marks the item finished; calling `finished()` on an
already-finished state changes nothing, so re-running `finished` on the
result of `finished` is the identity. -/
theorem finished_idempotent (item : WorkItem) (pending : Nat)
    (h : item.decremented = false) :
    ((item.finished pending).1.cancelCalls = item.cancelCalls + 1
      ∧ (item.finished pending).2 = pending - 1
      ∧ (item.finished pending).1.decremented = true)
    ∧ (∀ it : WorkItem, ∀ p : Nat, it.decremented = true →
        it.finished p = (it, p))
    ∧ (item.finished pending).1.finished (item.finished pending).2
        = item.finished pending := by
  refine ⟨?_, ?_, ?_⟩
  · simp [WorkItem.finished, h]
  · intro it p hit
    simp [WorkItem.finished, hit]
  · simp [WorkItem.finished, h]

/-- Witness for C2 at a concrete fresh item. -/
theorem finished_idempotent_witness :
    (⟨false, 0, ErrCantDo, none, 7⟩ : WorkItem).decremented = false
    ∧ ((⟨false, 0, ErrCantDo, none, 7⟩ : WorkItem).finished 3).1.cancelCalls
        = 1 :=
  ⟨rfl, (finished_idempotent ⟨false, 0, ErrCantDo, none, 7⟩ 3 rfl).1.1⟩

/-- C10: the `hasCtxErr` guard is set by every routed error, not only
context errors.  (a) If the action's non-context error is routed before
the `ctx.Done` observer runs, the observer routes nothing, so the item's
routed list is just that error; (b) in the opposite order one item
routes two errors, the observer's context error then the action's
non-context error (concrete instance); (c) in every schedule a context
error is never routed after any other error: every element after the
head of the routed list is a non-context error. -/
theorem guard_set_by_every_routed_error (ctxErr err : GoError)
    (h : err.isCtx = false) :
    raceRouted .actionThenCtxCase ctxErr (some err) = [err]
    ∧ (∀ s : GuardSchedule, ∀ c : GoError, ∀ r : Option GoError,
        ∀ e ∈ (raceRouted s c r).tail, e.isCtx = false)
    ∧ raceRouted .ctxCaseThenAction ⟨true, false, 1⟩
        (some ⟨false, false, 2⟩)
        = [⟨true, false, 1⟩, ⟨false, false, 2⟩] := by
  refine ⟨?_, ?_, by decide⟩
  · rcases err with ⟨c2, d2, i2⟩
    simp [GoError.isCtx] at h
    simp [raceRouted, doWork, workCtxDoneCase, h.1, h.2]
  · intro s c r
    rcases c with ⟨c1, d1, i1⟩
    rcases r with _ | ⟨c2, d2, i2⟩ <;> cases s <;> cases c1 <;> cases d1 <;>
      first
      | (cases c2 <;> cases d2 <;>
          simp [raceRouted, doWork, workCtxDoneCase, GoError.isCtx])
      | simp [raceRouted, doWork, workCtxDoneCase, GoError.isCtx]

/-- Witness for C10 at concrete errors. -/
theorem guard_set_by_every_routed_error_witness :
    (⟨false, false, 5⟩ : GoError).isCtx = false
    ∧ raceRouted .actionThenCtxCase ⟨true, false, 0⟩
        (some ⟨false, false, 5⟩) = [⟨false, false, 5⟩] :=
  ⟨rfl,
    (guard_set_by_every_routed_error ⟨true, false, 0⟩ ⟨false, false, 5⟩
      rfl).1⟩

/-! ## `Group.Kill` and the Go semantics of `close` -/

/-- Go semantics of `close(ch)`: closing an open channel closes it;
closing an already-closed channel panics.  `none` models the panic. -/
def closeChan (alreadyClosed : Bool) : Option Bool :=
  if alreadyClosed then none else some true

/-- `Group.Kill` (group.go lines 104–107): `close(g.death)`.  The
argument is whether the death channel is already closed; the result is
the new closed status, or `none` when the call panics. -/
def Kill (death : Bool) : Option Bool := closeChan death

/-- C3 counterexample: the claim says any `Kill()` after the first is a
safe no-op, but `Kill` on an already-dead pool is `close` of a closed
channel, which panics (`none`), not a no-op. -/
theorem kill_twice_panics : Kill true = none := rfl

/-- C3 (amended): the first `Kill()` transitions the death signal from
alive to dead, and the signal fires exactly once — not because later
calls are no-ops, but because any later call panics instead of firing
again. -/
theorem kill_fires_exactly_once :
    Kill false = some true ∧ Kill true = none := ⟨rfl, rfl⟩

/-! ## `Group.sendWorkItem` (admission hand-off) -/

/-- The three cases of the select in `Group.sendWorkItem`
(group.go lines 187–196). -/
inductive SendPick where
  | ctxDone
  | death
  | send
deriving DecidableEq, Repr

/-- Readiness of each select case at resolution time: `ctxDone`
requires the item's context to have expired, `death` the death channel
to be closed, `send` a free buffer slot or a waiting worker.  A Go
select only resolves to a ready case. -/
def SendPick.ready : SendPick → Bool → Bool → Bool → Bool
  | .ctxDone, c, _, _ => c
  | .death, _, d, _ => d
  | .send, _, _, s => s

/-- The observable outcome of one `sendWorkItem` call. -/
structure SendResult where
  routed : List GoError
  item : WorkItem
  pending : Nat
  sent : Bool
deriving DecidableEq, Repr

/-- `Group.sendWorkItem` (group.go lines 177–197): if the item's
context is already expired on entry, route `ErrCantDo` and finish the
item.  Otherwise select over {ctx.Done, death, do <- item}: on ctx.Done
route `ErrCantDo` and finish; on death finish without routing; on send,
hand the item over.  The function returns afterwards in every case —
there is no retry construct. -/
def sendWorkItem (ctxDoneAtEntry : Bool) (pick : SendPick)
    (item : WorkItem) (pending : Nat) : SendResult :=
  if (expired ctxDoneAtEntry item.ctxErr).isSome then
    let f := item.finished pending
    ⟨[ErrCantDo], f.1, f.2, false⟩
  else
    match pick with
    | .ctxDone =>
        let f := item.finished pending
        ⟨[ErrCantDo], f.1, f.2, false⟩
    | .death =>
        let f := item.finished pending
        ⟨[], f.1, f.2, false⟩
    | .send => ⟨[], item, pending, true⟩

/-- C5 counterexample: in the pool-dead sub-case the claim demands an
`AdmissionFailure` be routed, but when the death case of the select
resolves the hand-off (a dead pool whose context has not expired), the
item is finished silently and nothing is routed. -/
theorem admission_death_routes_nothing :
    SendPick.ready .death false true false = true
    ∧ (sendWorkItem false .death ⟨false, 0, ⟨true, false, 3⟩, none, 1⟩
        1).routed = [] := by
  decide

/-- C5 (amended): when the context is already expired at hand-off entry
or expires while the pool is busy (the ctx.Done case wins the select),
exactly one `ErrCantDo` is routed and the item is finished, not handed
to a worker and never retried; when the pool's death wins the hand-off
race, the item is finished silently and no error is routed. -/
theorem admission_failure_routing (ctxEntry : Bool) (pick : SendPick)
    (item : WorkItem) (pending : Nat) :
    (ctxEntry = true →
      (sendWorkItem ctxEntry pick item pending).routed = [ErrCantDo]
      ∧ (sendWorkItem ctxEntry pick item pending).item.decremented = true
      ∧ (sendWorkItem ctxEntry pick item pending).sent = false)
    ∧ (ctxEntry = false →
      (sendWorkItem ctxEntry .ctxDone item pending).routed = [ErrCantDo]
      ∧ (sendWorkItem ctxEntry .ctxDone item pending).item.decremented
          = true
      ∧ (sendWorkItem ctxEntry .ctxDone item pending).sent = false)
    ∧ (ctxEntry = false →
      (sendWorkItem ctxEntry .death item pending).routed = []
      ∧ (sendWorkItem ctxEntry .death item pending).item.decremented
          = true
      ∧ (sendWorkItem ctxEntry .death item pending).sent = false) := by
  rcases item with ⟨d, cc, ce, res, i⟩
  refine ⟨fun hc => ?_, fun hc => ?_, fun hc => ?_⟩ <;>
    subst hc <;> cases d <;>
    simp [sendWorkItem, WorkItem.finished, expired]

/-- Witness for C5 at a concrete expired-at-entry hand-off. -/
theorem admission_failure_routing_witness :
    (sendWorkItem true .send ⟨false, 0, ⟨true, false, 8⟩, none, 14⟩
        1).routed = [ErrCantDo] :=
  ((admission_failure_routing true .send
    ⟨false, 0, ⟨true, false, 8⟩, none, 14⟩ 1).1 rfl).1

/-! ## `Group.handleErrors` (the Error Router) -/

/-- The two cases of the select in `Group.handleErrors`
(group.go lines 120–140). -/
inductive RouterPick where
  | death
  | errRecv
deriving DecidableEq, Repr

/-- The observable outcome of one Error Router loop iteration. -/
structure RouterResult where
  received : Option GoError
  dispatched : List GoError
  terminated : Bool
deriving DecidableEq, Repr

/-- One iteration of `Group.handleErrors` (group.go lines 118–142):
select over {Death, errChan}.  On the death case, return.  On receiving
an error, re-check `g.Dead()` (`deadAtCheck` is the death status at
that check; death may fire between the send and the check) and return
without dispatching when dead; otherwise dispatch the error to the
handler, synchronously or in its own goroutine. -/
def handleErrorsStep (deadAtCheck : Bool) (pick : RouterPick)
    (e : GoError) : RouterResult :=
  match pick with
  | .death => ⟨none, [], true⟩
  | .errRecv =>
      if deadChan deadAtCheck then ⟨some e, [], true⟩
      else ⟨some e, [e], false⟩

/-- C6 counterexample: an error received from the error channel when
the group is (or has just become) dead is discarded without being
dispatched to the handler — the router returns instead. -/
theorem router_discards_after_death :
    (handleErrorsStep true .errRecv ⟨false, false, 9⟩).received
        = some ⟨false, false, 9⟩
    ∧ (handleErrorsStep true .errRecv ⟨false, false, 9⟩).dispatched = []
    := by decide

/-- C6 (amended): every error received from the error channel while the
group is alive is dispatched to the user handler exactly once and the
router keeps running; an error received once the group is dead is
discarded and the router terminates. -/
theorem router_dispatches_while_alive (e : GoError) :
    ((handleErrorsStep false .errRecv e).received = some e
      ∧ (handleErrorsStep false .errRecv e).dispatched = [e]
      ∧ (handleErrorsStep false .errRecv e).terminated = false)
    ∧ ((handleErrorsStep true .errRecv e).dispatched = []
      ∧ (handleErrorsStep true .errRecv e).terminated = true) := by
  simp [handleErrorsStep, deadChan]

/-! ## Operational model of one pool

A `PoolState` carries the pool's observable state: the fixed worker
count and admission-buffer capacity, whether the death channel is
closed, the wait-group counter (`pending`), the contents of the `do`
channel (`queue`; with a positive worker count it also holds items in
direct hand-off to a waiting worker), the errors sent on the error
channel tagged by the item that produced them, the ids of actions a
worker has actually run, and the items whose finish path has run. -/
structure PoolState where
  workers : Nat
  bufSize : Nat
  death : Bool
  pending : Nat
  queue : List WorkItem
  routed : List (Nat × GoError)
  executed : List Nat
  processed : List WorkItem
deriving DecidableEq, Repr

/-- The atomic events of the pool: `Group.Kill`, one complete
`Group.AddWorkItem` call (with the resolution of its `sendWorkItem`
select and the context status at entry), and one iteration of a
worker's `start` loop that received an item (with the context status at
the worker's check and the schedule of the guarded error race). -/
inductive Event where
  | kill
  | add (item : WorkItem) (pick : SendPick) (ctxEntry : Bool)
  | workerRecv (ctxDoneAtCheck : Bool) (sched : GuardSchedule)
deriving DecidableEq, Repr

/-- Tag a list of routed errors with the id of the item they belong
to. -/
def tagRouted (id : Nat) (l : List GoError) : List (Nat × GoError) :=
  l.map (fun e => (id, e))

/-- One atomic step of the pool.

`kill`: `close(g.death)` — the death channel is closed afterwards.

`add` (group.go lines 60–84 plus `sendWorkItem`): if the group is dead
on arrival, return without enqueuing or touching the wait group.
Otherwise `wg.Add(1)`, build the item, and resolve the hand-off: a
successful send appends the item to the `do` channel; with no workers
and a full buffer the send case can never be ready, so the hand-off
blocks forever with the wait-group increment already made; a failed
hand-off routes and finishes per `sendWorkItem`.

`workerRecv` (worker.go lines 48–59): only possible when workers
exist and the `do` channel has an item; the worker runs `work` on it
(which abandons it when dead, routes `ctx.Err()` when expired, and
otherwise executes the action against the guarded race) and then calls
`item.finished()`. -/
def step (s : PoolState) (e : Event) : PoolState :=
  match e with
  | .kill => { s with death := true }
  | .add item pick ctxEntry =>
      if deadChan s.death then s
      else
        let p1 := s.pending + 1
        let r := sendWorkItem ctxEntry pick item p1
        if r.sent then
          if s.workers ≠ 0 || s.queue.length < s.bufSize then
            { s with pending := p1, queue := s.queue ++ [item] }
          else
            { s with pending := p1 }
        else
          { s with pending := r.pending,
                   routed := s.routed ++ tagRouted item.id r.routed,
                   processed := s.processed ++ [r.item] }
  | .workerRecv ctxDone sched =>
      if s.workers = 0 then s
      else
        match s.queue with
        | [] => s
        | item :: rest =>
            let w := workerWork s.death ctxDone item sched
            let f := item.finished s.pending
            { s with queue := rest,
                     pending := f.2,
                     routed := s.routed ++ tagRouted item.id w.1,
                     executed := s.executed ++ if w.2 then [item.id] else [],
                     processed := s.processed ++ [f.1] }

/-- Run a trace of events from a state. -/
def run (s : PoolState) (tr : List Event) : PoolState :=
  tr.foldl step s

/-- The fast path of `Group.mimic` (group.go lines 155–158): when the
group is already dead at entry, `mimic` returns immediately, before
even constructing the waiter goroutine.  `Wait()` is `mimic(nil)`. -/
def mimicReturnsImmediately (death : Bool) : Bool := deadChan death

theorem run_nil (s : PoolState) : run s [] = s := rfl

theorem run_cons (s : PoolState) (e : Event) (tr : List Event) :
    run s (e :: tr) = run (step s e) tr := rfl

/-- Helper: a single step from a dead state keeps death set, never adds
to the executed actions, and never increases the pending counter. -/
theorem step_dead_frame (s : PoolState) (e : Event) (h : s.death = true) :
    (step s e).death = true ∧ (step s e).executed = s.executed
      ∧ (step s e).pending ≤ s.pending := by
  cases e with
  | kill => simp [step, h]
  | add item pick ctxEntry => simp [step, deadChan, h]
  | workerRecv ctxDone sched =>
      by_cases hw : s.workers = 0
      · simp [step, hw, h]
      · cases hq : s.queue with
        | nil => simp [step, hw, hq, h]
        | cons item rest =>
            refine ⟨by simp [step, hw, hq, h],
              by simp [step, hw, hq, workerWork, deadChan, h], ?_⟩
            simp [step, hw, hq, WorkItem.finished]
            split <;> simp

/-- C4: once the death signal has fired, no event of any subsequent
trace executes a new work item (a worker receiving an item while dead
abandons it without running its action, and submissions while dead
enqueue nothing), death stays fired, and the pending counter never
increases again. -/
theorem death_stops_execution (s : PoolState) (tr : List Event)
    (h : s.death = true) :
    (run s tr).death = true ∧ (run s tr).executed = s.executed
      ∧ (run s tr).pending ≤ s.pending
      ∧ ∀ item : WorkItem, ∀ pick : SendPick, ∀ ctxEntry : Bool,
          step (run s tr) (.add item pick ctxEntry) = run s tr := by
  have main : ∀ tr2 : List Event, ∀ s2 : PoolState, s2.death = true →
      (run s2 tr2).death = true ∧ (run s2 tr2).executed = s2.executed
        ∧ (run s2 tr2).pending ≤ s2.pending := by
    intro tr2
    induction tr2 with
    | nil => intro s2 h2; simp [run_nil, h2]
    | cons e tr2 ih =>
        intro s2 h2
        have hs := step_dead_frame s2 e h2
        have ht := ih (step s2 e) hs.1
        exact ⟨by rw [run_cons]; exact ht.1,
          by rw [run_cons]; exact ht.2.1.trans hs.2.1,
          by rw [run_cons]; exact ht.2.2.trans hs.2.2⟩
  have hm := main tr s h
  refine ⟨hm.1, hm.2.1, hm.2.2, fun item pick ctxEntry => ?_⟩
  simp [step, deadChan, hm.1]

/-- Witness for C4: a dead single-worker pool with one queued item; a
worker picking it up abandons it and pending drops. -/
theorem death_stops_execution_witness :
    (⟨1, 0, true, 1, [⟨false, 0, ⟨true, false, 2⟩, some ⟨false, false, 3⟩,
        8⟩], [], [], []⟩ : PoolState).death = true
    ∧ (run ⟨1, 0, true, 1, [⟨false, 0, ⟨true, false, 2⟩,
        some ⟨false, false, 3⟩, 8⟩], [], [], []⟩
        [.workerRecv false .actionOnly]).executed = [] :=
  ⟨rfl,
    (death_stops_execution
      ⟨1, 0, true, 1, [⟨false, 0, ⟨true, false, 2⟩, some ⟨false, false, 3⟩,
        8⟩], [], [], []⟩
      [.workerRecv false .actionOnly] rfl).2.1⟩

/-- Helper: `sendWorkItem` routes either nothing or exactly one
`ErrCantDo`. -/
theorem sendWorkItem_routed_cases (ctxEntry : Bool) (pick : SendPick)
    (item : WorkItem) (p : Nat) :
    (sendWorkItem ctxEntry pick item p).routed = []
      ∨ (sendWorkItem ctxEntry pick item p).routed = [ErrCantDo] := by
  cases ctxEntry <;> cases pick <;> simp [sendWorkItem, expired]

/-- Helper: any single step keeps the worker count; with zero workers
it also keeps the executed set, and every newly routed error is an
admission error (`ErrCantDo`). -/
theorem step_zero_workers_frame (s : PoolState) (e : Event)
    (h : s.workers = 0) :
    (step s e).workers = 0 ∧ (step s e).executed = s.executed
      ∧ ∀ p ∈ (step s e).routed, p ∈ s.routed ∨ p.2 = ErrCantDo := by
  cases e with
  | kill =>
      exact ⟨h, rfl, fun p hp => Or.inl hp⟩
  | workerRecv ctxDone sched =>
      have hid : step s (.workerRecv ctxDone sched) = s := by simp [step, h]
      rw [hid]
      exact ⟨h, rfl, fun p hp => Or.inl hp⟩
  | add item pick ctxEntry =>
      by_cases hd : s.death = true
      · have hid : step s (.add item pick ctxEntry) = s := by
          simp [step, deadChan, hd]
        rw [hid]
        exact ⟨h, rfl, fun p hp => Or.inl hp⟩
      · simp only [Bool.not_eq_true] at hd
        simp only [step, deadChan, hd, Bool.false_eq_true, if_false]
        split
        · split
          · exact ⟨h, rfl, fun p hp => Or.inl hp⟩
          · exact ⟨h, rfl, fun p hp => Or.inl hp⟩
        · refine ⟨h, rfl, fun p hp => ?_⟩
          rcases List.mem_append.1 hp with hmem | hmem
          · exact Or.inl hmem
          · rcases sendWorkItem_routed_cases ctxEntry pick item
              (s.pending + 1) with hr | hr <;> rw [hr] at hmem
            · simp [tagRouted] at hmem
            · right
              rw [show tagRouted item.id [ErrCantDo]
                    = [(item.id, ErrCantDo)] from rfl,
                List.mem_singleton] at hmem
              rw [hmem]

/-- C7 (amended): in a pool with zero workers no submitted action is
ever executed by any trace of events, and every error ever routed is an
admission failure (`ErrCantDo`), never an `ActionFailure`; a submission
whose hand-off cannot enter the admission buffer and whose context
expires routes exactly one `ErrCantDo` for the item; but a submission
accepted into free buffer space routes no error at all — the item is
parked in the buffer with `pending` incremented and no worker to claim
it, so with free buffer space no `AdmissionFailure` is ever produced
for it. -/
theorem zero_worker_pool_admission (s : PoolState) (tr : List Event)
    (item : WorkItem) (h : s.workers = 0) (halive : s.death = false) :
    ((run s tr).executed = s.executed)
    ∧ (∀ p ∈ (run s tr).routed, p ∈ s.routed ∨ p.2 = ErrCantDo)
    ∧ ((step s (.add item .ctxDone false)).routed
        = s.routed ++ [(item.id, ErrCantDo)])
    ∧ (s.queue.length < s.bufSize →
        (step s (.add item .send false)).routed = s.routed
          ∧ (step s (.add item .send false)).queue = s.queue ++ [item]
          ∧ (step s (.add item .send false)).pending = s.pending + 1) := by
  have main : ∀ tr2 : List Event, ∀ s2 : PoolState, s2.workers = 0 →
      (run s2 tr2).executed = s2.executed
        ∧ ∀ p ∈ (run s2 tr2).routed, p ∈ s2.routed ∨ p.2 = ErrCantDo := by
    intro tr2
    induction tr2 with
    | nil => exact fun s2 _ => ⟨rfl, fun p hp => Or.inl hp⟩
    | cons e tr2 ih =>
        intro s2 h2
        have hs := step_zero_workers_frame s2 e h2
        have ht := ih (step s2 e) hs.1
        refine ⟨?_, ?_⟩ <;> rw [run_cons]
        · exact ht.1.trans hs.2.1
        · intro p hp
          rcases ht.2 p hp with hin | hcd
          · exact hs.2.2 p hin
          · exact Or.inr hcd
  refine ⟨(main tr s h).1, (main tr s h).2, ?_, fun hspace => ?_⟩
  · simp [step, deadChan, halive, sendWorkItem, expired, tagRouted]
  · refine ⟨?_, ?_, ?_⟩ <;>
      simp [step, deadChan, halive, sendWorkItem, expired, h, hspace]

/-- C7 counterexample: a zero-worker pool with a one-slot admission
buffer accepts a submission (whose context is a deadline context that
does expire) straight into the buffer: the hand-off succeeds, `pending`
becomes 1, and no error of any kind is routed — no `AdmissionFailure`
is ever produced for the item, contradicting "for any admission buffer
size ... exactly one AdmissionFailure is routed per item". -/
theorem zero_worker_buffered_submission_no_error :
    step ⟨0, 1, false, 0, [], [], [], []⟩
        (.add ⟨false, 0, ⟨false, true, 4⟩, none, 11⟩ .send false)
      = ⟨0, 1, false, 1, [⟨false, 0, ⟨false, true, 4⟩, none, 11⟩], [], [],
          []⟩ := by
  decide

/-- Witness for C7 at a concrete zero-worker pool and trace. -/
theorem zero_worker_pool_admission_witness :
    (⟨0, 0, false, 0, [], [], [], []⟩ : PoolState).workers = 0
    ∧ (step ⟨0, 0, false, 0, [], [], [], []⟩
        (.add ⟨false, 0, ⟨true, false, 5⟩, none, 12⟩ .ctxDone false)).routed
      = [(12, ErrCantDo)] := by
  refine ⟨rfl, ?_⟩
  have := (zero_worker_pool_admission ⟨0, 0, false, 0, [], [], [], []⟩
    [] ⟨false, 0, ⟨true, false, 5⟩, none, 12⟩ rfl rfl).2.2.1
  simpa using this

/-- C8: submitting to a dead pool is a complete no-op — the state,
including the pending counter and the queue, is unchanged — and once a
pool has been killed (in particular before any work was submitted),
`mimic`, hence `Wait()` and `Done()`, returns immediately via its
dead-on-entry fast path. -/
theorem dead_pool_submission_noop (s : PoolState) (item : WorkItem)
    (pick : SendPick) (ctxEntry : Bool) (h : s.death = true) :
    step s (.add item pick ctxEntry) = s
    ∧ (∀ s2 : PoolState,
        mimicReturnsImmediately (step s2 .kill).death = true)
    ∧ mimicReturnsImmediately s.death = true := by
  refine ⟨by simp [step, deadChan, h], fun s2 => rfl,
    by simp [mimicReturnsImmediately, deadChan, h]⟩

/-- Witness for C8: killing a fresh pool, then submitting, changes
nothing and `Wait` returns immediately. -/
theorem dead_pool_submission_noop_witness :
    (step (⟨2, 0, false, 0, [], [], [], []⟩ : PoolState) .kill).death = true
    ∧ step (step ⟨2, 0, false, 0, [], [], [], []⟩ .kill)
        (.add ⟨false, 0, ⟨true, false, 7⟩, none, 13⟩ .send false)
      = step ⟨2, 0, false, 0, [], [], [], []⟩ .kill :=
  ⟨rfl,
    (dead_pool_submission_noop (step ⟨2, 0, false, 0, [], [], [], []⟩ .kill)
      ⟨false, 0, ⟨true, false, 7⟩, none, 13⟩ .send false rfl).1⟩

/-- Helper: in a dead pool with zero workers every event is a no-op, so
whole traces are no-ops. -/
theorem run_dead_zero_workers (s : PoolState) (tr : List Event)
    (hd : s.death = true) (hw : s.workers = 0) : run s tr = s := by
  have hstep : ∀ e : Event, step s e = s := by
    intro e
    cases e with
    | kill =>
        rcases s with ⟨w, b, d, p, q, r, ex, pr⟩
        simp only at hd
        simp [step, hd]
    | add item pick ctxEntry => simp [step, deadChan, hd]
    | workerRecv ctxDone sched => simp [step, hw]
  induction tr with
  | nil => rfl
  | cons e tr ih => rw [run_cons, hstep e]; exact ih

/-- C9 (amended): whenever an admitted item's finish path runs, its
cancellation handle is invoked exactly once — the first `finished()`
call cancels once and every later call changes nothing — and every
failed hand-off runs the finish path; but an item still sitting in the
admission queue when the pool dies with no worker left to claim it is
never touched again by any trace of events, so its cancellation handle
is never invoked. -/
theorem cancel_invoked_exactly_once_on_finish (item : WorkItem)
    (pending : Nat) (s : PoolState) (tr : List Event)
    (h0 : item.cancelCalls = 0) (h1 : item.decremented = false)
    (hd : s.death = true) (hw : s.workers = 0) :
    ((item.finished pending).1.cancelCalls = 1
      ∧ ∀ p2 : Nat, ((item.finished pending).1.finished p2).1.cancelCalls
          = 1)
    ∧ (∀ ctxEntry : Bool, ∀ pick : SendPick,
        (sendWorkItem ctxEntry pick item pending).sent = false →
        (sendWorkItem ctxEntry pick item pending).item.cancelCalls = 1)
    ∧ run s tr = s := by
  refine ⟨⟨?_, ?_⟩, ?_, run_dead_zero_workers s tr hd hw⟩
  · simp [WorkItem.finished, h1, h0]
  · intro p2
    simp [WorkItem.finished, h1, h0]
  · intro ctxEntry pick hsent
    cases ctxEntry <;> cases pick <;>
      simp_all [sendWorkItem, expired, WorkItem.finished, h1, h0]

/-- C9 counterexample: a zero-worker pool with a one-slot buffer admits
an item (pending becomes 1, the item is queued with its cancel handle
never yet invoked) and is then killed; the resulting dead pool still
holds the item in its queue with `cancelCalls = 0`, and no worker
exists to ever run its finish path. -/
theorem queued_item_never_cancelled :
    run ⟨0, 1, false, 0, [], [], [], []⟩
        [.add ⟨false, 0, ⟨true, false, 6⟩, none, 21⟩ .send false, .kill]
      = ⟨0, 1, true, 1, [⟨false, 0, ⟨true, false, 6⟩, none, 21⟩], [], [],
          []⟩ := by
  decide

/-- Witness for C9 at a concrete item and dead zero-worker pool. -/
theorem cancel_invoked_exactly_once_on_finish_witness :
    ((⟨false, 0, ⟨true, false, 6⟩, none, 21⟩ : WorkItem).cancelCalls = 0
      ∧ (⟨false, 0, ⟨true, false, 6⟩, none, 21⟩ : WorkItem).decremented
          = false)
    ∧ ((⟨false, 0, ⟨true, false, 6⟩, none, 21⟩ : WorkItem).finished
        1).1.cancelCalls = 1 :=
  ⟨⟨rfl, rfl⟩,
    (cancel_invoked_exactly_once_on_finish
      ⟨false, 0, ⟨true, false, 6⟩, none, 21⟩ 1
      ⟨0, 1, true, 1, [⟨false, 0, ⟨true, false, 6⟩, none, 21⟩], [], [], []⟩
      [] rfl rfl rfl rfl).1.1⟩

end Ctxerrpool
